import Mathlib

/-!
# The llama.cpp binding `ios/Runner/llama_wrapper.cpp`

A shallow embedding of the six C-linkage operations of the binding
(`llama_init`, `llama_generate_text`, `llama_get_model_info`, `llama_is_valid`,
`llama_free`, `llama_free_string`) and the properties of the session lifecycle and
of the generation loop.

The inference engine (llama.cpp) is external.  It is a parameter of the embedding:
an `Engine` gives the answer of every engine call as a function of the calls made
so far, so a statement quantified over `Engine` holds whatever the engine returns.
Every engine call, and every allocation or deletion of a session record, is
recorded in order in the `trace` of the `World`.

Conventions.
* Engine pointers (`llama_model*`, the engine context) and session handles are
  natural numbers, `0` being `nullptr`.
* A `const char*` argument is `Option String`, `none` being `nullptr`; a `String`
  stands for the characters before the terminating NUL, one `Char` per C `char`.
* The value constructors `llama_model_default_params`,
  `llama_context_default_params` and `llama_batch_get_one` only build the argument
  records of the call they feed and are folded into that call.
* Memory exhaustion (`std::bad_alloc`, or `malloc` returning null) is outside the
  model; the one exception that is modelled is the `std::length_error` of
  `candidates.reserve` on a negative vocabulary size.
-/

set_option linter.dupNamespace false

namespace LlamaWrapper

/-! ## Data model -/

/-- Engine token id (`llama_token`, an `int32_t`). -/
abbrev llama_token := Int

/-- Decimal `float` literal of the source, `digits / 10 ^ scale`; the binding only
passes these values through to the engine. -/
structure Decimal where
  digits : Nat
  scale : Nat
deriving DecidableEq, Repr

/-- The fields of `gpt_params` (common.h of the engine) the binding reads or
writes. -/
structure gpt_params where
  model : String
  n_ctx : Int
  n_batch : Int
  n_threads : Int
  temp : Decimal
  top_p : Decimal
  n_predict : Int
deriving DecidableEq, Repr

/-- Session record `struct llama_context` of the binding (lines 10-25): the engine
model, the engine context, the parameters and the validity flag. -/
structure llama_context where
  model : Nat
  ctx : Nat
  params : gpt_params
  is_valid : Bool
deriving DecidableEq, Repr

/-- Constructor `llama_context::llama_context()` (lines 16-24): null model and
context, flag false, and the six default parameters.  `params.model` keeps the
initial value of `gpt_params`, which `llama_init` overwrites before any use. -/
def llama_context.llama_context (default_model : String) : llama_context :=
  { model := 0
    ctx := 0
    params :=
      { model := default_model
        n_ctx := 2048
        n_batch := 512
        n_threads := 4
        temp := ⟨7, 1⟩
        top_p := ⟨9, 1⟩
        n_predict := 100 }
    is_valid := false }

/-- One observable effect: an engine call with its arguments and its answer, or
the allocation / deletion of a session record. -/
inductive Event where
  | new_session (addr : Nat)
  | delete_session (addr : Nat)
  | backend_init (numa : Bool)
  | load_model (path : String) (ret : Nat)
  | new_context (model : Nat) (n_ctx n_batch n_threads : Int) (ret : Nat)
  /-- The engine's own release of a context; the binding never makes this call. -/
  | free_context (ctx : Nat)
  | free_model (model : Nat)
  | backend_free
  | tokenize (model : Nat) (text : String) (text_len n_max_tokens : Nat)
      (add_bos special : Bool) (ret : Int)
  | decode (ctx : Nat) (tokens : List llama_token) (pos : Int) (seq_id : Int) (ret : Int)
  | get_logits_ith (ctx : Nat) (i : Int)
  | n_vocab (model : Nat) (ret : Int)
  | sample_temp (ctx : Nat) (temp : Decimal)
  | sample_top_p (ctx : Nat) (p : Decimal) (min_keep : Nat)
  | sample_token (ctx : Nat) (ret : llama_token)
  | token_eos (model : Nat) (ret : llama_token)
  | token_to_piece (model : Nat) (token : llama_token) (length : Nat) (ret : Int)
deriving DecidableEq, Repr

/-- The external inference engine.  The answer of a state-dependent call is a
function of the trace of all earlier effects and of the arguments; the vocabulary
queries (`n_vocab`, `token_eos`, the text of a token) depend on the model only. -/
structure Engine where
  /-- Answer of `llama_load_model_from_file`: the model, `0` on failure. -/
  load_model : List Event → String → Nat
  /-- Answer of `llama_new_context_with_model`: the context, `0` on failure. -/
  new_context : List Event → Nat → Int → Int → Int → Nat
  /-- Answer of `llama_tokenize`: the returned count and the tokens written. -/
  tokenize : List Event → Nat → String → Nat → Nat → Bool → Bool → Int × List llama_token
  /-- Answer of `llama_decode`: `0` on success. -/
  decode : List Event → Nat → List llama_token → Int → Int → Int
  /-- Answer of `llama_sample_token` on the candidates built from the logits. -/
  sample_token : List Event → Nat → llama_token
  /-- Answer of `llama_n_vocab`. -/
  n_vocab : Nat → Int
  /-- Answer of `llama_token_eos`. -/
  token_eos : Nat → llama_token
  /-- Decoded text (piece) of a token in the vocabulary of a model. -/
  piece : Nat → llama_token → String
  /-- Initial value of `gpt_params::model` (common.h). -/
  default_model : String

/-- Modelled from the spec: the engine call
`llama_token_to_piece(model, token, buf, length)` of llama.h, which is not among the
sources.  When the piece fits in `length` bytes it is written to the buffer and its
length is returned; otherwise nothing is written and the negated length, a
non-positive number, is returned. -/
def Engine.token_to_piece (E : Engine) (model : Nat) (token : llama_token) (length : Nat) :
    Int × String :=
  if (E.piece model token).length ≤ length then
    (((E.piece model token).length : Nat), E.piece model token)
  else
    (-(((E.piece model token).length : Nat) : Int), "")

/-- Program state: the trace of effects so far and the live session records by
address. -/
structure World where
  trace : List Event
  heap : List (Nat × llama_context)
deriving DecidableEq, Repr

/-- Result of an operation: it returns a value in a new world, or it dereferences a
session pointer that is neither null nor live (undefined behaviour). -/
inductive Outcome (α : Type) where
  | ok (ret : α) (w : World)
  | undefined
deriving DecidableEq, Repr

/-- Address given to a new session record: above every live address, never `0`. -/
def fresh (heap : List (Nat × llama_context)) : Nat :=
  (heap.map Prod.fst).foldr max 0 + 1

/-- The terminating character of C text. -/
def NUL : Char := Char.ofNat 0

/-- Result of `strcpy(output, s.c_str())` on the contents of a `std::string`: the
characters before the first NUL. -/
def c_str (s : String) : String :=
  String.mk (s.data.takeWhile (fun c => c != NUL))

/-- Value after `std::string::append(buf, n)`: the first `n` characters of the
buffer are appended. -/
def string_append (s buf : String) (n : Nat) : String :=
  s ++ String.mk (buf.data.take n)

/-- Value after `std::vector<llama_token>::resize(n)`: truncated, or padded with
zeros. -/
def vector_resize (v : List llama_token) (n : Nat) : List llama_token :=
  v.take n ++ List.replicate (n - v.length) 0

/-- Conversion of the `size_t` value `tokens.size() + i` to the 32-bit `llama_pos`
argument of `llama_batch_get_one`. -/
def llama_pos_of (n : Nat) : Int :=
  if n % 2 ^ 32 < 2 ^ 31 then ((n % 2 ^ 32 : Nat) : Int) else ((n % 2 ^ 32 : Nat) : Int) - 2 ^ 32

/-! ## Session lifecycle -/

/-- Operation `llama_init(model_path)` (lines 29-67).  The session record is owned
by a `std::unique_ptr`, so it is deleted on every failing return. -/
def llama_init (E : Engine) (model_path : Option String) (w : World) : Outcome Nat :=
  match model_path with
  | none => .ok 0 w
  | some path =>
    let a := fresh w.heap
    let ctx0 := llama_context.llama_context E.default_model
    let tr1 := w.trace ++ [.new_session a, .backend_init false]
    let params := { ctx0.params with model := path }
    let model := E.load_model tr1 path
    let tr2 := tr1 ++ [.load_model path model]
    if model = 0 then
      .ok 0 { trace := tr2 ++ [.delete_session a], heap := w.heap }
    else
      let c := E.new_context tr2 model params.n_ctx params.n_batch params.n_threads
      let tr3 := tr2 ++ [.new_context model params.n_ctx params.n_batch params.n_threads c]
      if c = 0 then
        .ok 0 { trace := tr3 ++ [.free_model model, .delete_session a], heap := w.heap }
      else
        .ok a
          { trace := tr3
            heap := (a, { model := model, ctx := c, params := params, is_valid := true })
              :: w.heap }

/-- Body of `llama_free(ctx)` (lines 167-178) with a bound on the depth of its
recursion.  The binding defines `llama_free` itself with `extern "C"` linkage on its
own `llama_context`, so the inner call `llama_free(ctx->ctx)` of line 170 is a call
of this same function on the pointer stored in the record, not a call into the
engine: the pointer is dereferenced as a session record, and the whole body,
`llama_backend_free()` included, runs for it.  After the inner call the fields of
`ctx` are read again from the heap.  `llama_backend_free()` runs for a null handle
too. -/
def llama_free_rec : Nat → Nat → World → Outcome Unit
  | 0, _, _ => .undefined
  | depth + 1, ctx, w =>
    if ctx = 0 then .ok () { w with trace := w.trace ++ [.backend_free] }
    else
      match w.heap.lookup ctx with
      | none => .undefined
      | some s =>
        match (if s.ctx ≠ 0 then llama_free_rec depth s.ctx w else .ok () w) with
        | .undefined => .undefined
        | .ok _ w1 =>
          match w1.heap.lookup ctx with
          | none => .undefined
          | some s1 =>
            let tr2 := if s1.model ≠ 0 then w1.trace ++ [.free_model s1.model] else w1.trace
            .ok ()
              { trace := tr2 ++ [.delete_session ctx, .backend_free]
                heap := w1.heap.filter (fun p => p.1 != ctx) }

/-- Operation `llama_free(ctx)` (lines 167-178).  No record is deleted before the
innermost call, so a chain of calls that ends visits distinct live records and has
at most `w.heap.length + 1` calls; a longer chain is a cycle of records, on which
the source recurses without end, and is reported as undefined. -/
def llama_free (ctx : Nat) (w : World) : Outcome Unit :=
  llama_free_rec (w.heap.length + 1) ctx w

/-- Operation `llama_free_string(str)` (lines 180-184): releases the text, no engine
call. -/
def llama_free_string (_str : Option String) (w : World) : Outcome Unit :=
  .ok () w

/-! ## Metadata query -/

/-- Operation `llama_get_model_info(ctx)` (lines 143-161). -/
def llama_get_model_info (ctx : Nat) (w : World) : Outcome (Option String) :=
  if ctx = 0 then .ok none w
  else
    match w.heap.lookup ctx with
    | none => .undefined
    | some s =>
      if s.is_valid = false then .ok none w
      else
        let info := "Model: " ++ s.params.model ++ "\n"
        let info := info ++ ("Context size: " ++ toString s.params.n_ctx ++ "\n")
        let info := info ++ ("Batch size: " ++ toString s.params.n_batch ++ "\n")
        let info := info ++ ("Threads: " ++ toString s.params.n_threads ++ "\n")
        .ok (some (c_str info)) w

/-! ## Text generation -/

/-- Effective token budget `max_gen_tokens` (line 87). -/
def max_gen_tokens (s : llama_context) (max_tokens : Int) : Int :=
  if max_tokens > 0 then max_tokens else s.params.n_predict

/-- The generation loop (lines 95-131), entered with `remaining` iterations left at
index `i`, the text accumulated so far and the trace so far; it returns the final
text and trace, or `none` for the text when an exception leaves the loop.
`n_prompt` is `tokens.size()`.  With a negative `llama_n_vocab` the call
`candidates.reserve(n_vocab)` of line 101 throws `std::length_error`.  The candidate
array built from the logits (lines 100-107) is engine data handed back to the
engine and is not represented. -/
def generate_loop (E : Engine) (s : llama_context) (n_prompt : Nat) :
    Nat → Nat → String → List Event → Option String × List Event
  | 0, _, result, tr => (some result, tr)
  | remaining + 1, i, result, tr =>
    let tr0 := tr ++ [.get_logits_ith s.ctx (-1), .n_vocab s.model (E.n_vocab s.model)]
    if E.n_vocab s.model < 0 then (none, tr0)
    else
      let tr1 := tr0 ++ [.sample_temp s.ctx s.params.temp, .sample_top_p s.ctx s.params.top_p 1]
      let new_token := E.sample_token tr1 s.ctx
      let tr2 := tr1 ++ [.sample_token s.ctx new_token,
        .token_eos s.model (E.token_eos s.model)]
      if new_token = E.token_eos s.model then (some result, tr2)
      else
        let piece := E.token_to_piece s.model new_token 8
        let tr3 := tr2 ++ [.token_to_piece s.model new_token 8 piece.1]
        let result1 :=
          if piece.1 > 0 then string_append result piece.2 piece.1.toNat else result
        let pos := llama_pos_of (n_prompt + i)
        let rc := E.decode tr3 s.ctx [new_token] pos 0
        let tr4 := tr3 ++ [.decode s.ctx [new_token] pos 0 rc]
        if rc ≠ 0 then (some result1, tr4)
        else generate_loop E s n_prompt remaining (i + 1) result1 tr4

/-- Operation `llama_generate_text(ctx, prompt, max_tokens)` (lines 69-141).  An
exception thrown in the loop is caught at line 138 and the call returns null. -/
def llama_generate_text (E : Engine) (ctx : Nat) (prompt : Option String) (max_tokens : Int)
    (w : World) : Outcome (Option String) :=
  if ctx = 0 then .ok none w
  else
    match w.heap.lookup ctx with
    | none => .undefined
    | some s =>
      if s.is_valid = false then .ok none w
      else
        match prompt with
        | none => .ok none w
        | some text =>
          let n_max := text.length + 1
          let tk := E.tokenize w.trace s.model text text.length n_max true false
          let tr1 := w.trace ++ [.tokenize s.model text text.length n_max true false tk.1]
          if tk.1 < 0 then .ok none { w with trace := tr1 }
          else
            let tokens := vector_resize (vector_resize tk.2 n_max) tk.1.toNat
            let rc := E.decode tr1 s.ctx tokens 0 0
            let tr2 := tr1 ++ [.decode s.ctx tokens 0 0 rc]
            if rc ≠ 0 then .ok none { w with trace := tr2 }
            else
              let out := generate_loop E s tokens.length (max_gen_tokens s max_tokens).toNat 0
                "" tr2
              match out.1 with
              | none => .ok none { w with trace := out.2 }
              | some result => .ok (some (c_str result)) { w with trace := out.2 }

/-! ## Observations on a trace -/

/-- The tokens returned by `llama_sample_token`, in order. -/
def sampled (tr : List Event) : List llama_token :=
  tr.filterMap fun e => match e with
    | .sample_token _ t => some t
    | _ => none

/-- The token texts appended to the result, in order: one for each
`llama_token_to_piece` call that returned a positive length. -/
def appended (E : Engine) (tr : List Event) : List String :=
  tr.filterMap fun e => match e with
    | .token_to_piece m t _ ret => if ret > 0 then some (E.piece m t) else none
    | _ => none

/-- The single-token batches fed back to the engine with their positions and
results. -/
def fed_back (tr : List Event) : List (llama_token × Int × Int) :=
  tr.filterMap fun e => match e with
    | .decode _ [t] pos _ ret => some (t, pos, ret)
    | _ => none

/-- Resource counters of the engine and of the binding, read off the trace and the
heap: acquisitions minus releases. -/
structure Counters where
  backend : Int
  models : Int
  contexts : Int
  sessions : Int
deriving DecidableEq, Repr

/-- Whether the effect acquires the backend. -/
def Event.isBackendInit : Event → Bool
  | .backend_init _ => true
  | _ => false

/-- Whether the effect releases the backend. -/
def Event.isBackendFree : Event → Bool
  | .backend_free => true
  | _ => false

/-- Whether the effect is a successful model load. -/
def Event.isModelLoad : Event → Bool
  | .load_model _ ret => ret != 0
  | _ => false

/-- Whether the effect releases a model. -/
def Event.isModelFree : Event → Bool
  | .free_model _ => true
  | _ => false

/-- Whether the effect is a successful context creation. -/
def Event.isContextNew : Event → Bool
  | .new_context _ _ _ _ ret => ret != 0
  | _ => false

/-- Whether the effect releases an engine context. -/
def Event.isContextFree : Event → Bool
  | .free_context _ => true
  | _ => false

/-- Whether the effect allocates a session record. -/
def Event.isSessionNew : Event → Bool
  | .new_session _ => true
  | _ => false

/-- Whether the effect deletes a session record. -/
def Event.isSessionDelete : Event → Bool
  | .delete_session _ => true
  | _ => false

/-- Counters of a trace. -/
def counters (tr : List Event) : Counters :=
  { backend := (tr.countP Event.isBackendInit : Int) - tr.countP Event.isBackendFree
    models := (tr.countP Event.isModelLoad : Int) - tr.countP Event.isModelFree
    contexts := (tr.countP Event.isContextNew : Int) - tr.countP Event.isContextFree
    sessions := (tr.countP Event.isSessionNew : Int) - tr.countP Event.isSessionDelete }

/-- Whether the effect is a `llama_decode` call that reported failure. -/
def Event.isFailedDecode : Event → Bool
  | .decode _ _ _ _ ret => ret != 0
  | _ => false

/-- The effects of the sampling half of one loop iteration (lines 97-116) when the
sampler returns `tok`. -/
def sampling_events (E : Engine) (s : llama_context) (tok : llama_token) : List Event :=
  [.get_logits_ith s.ctx (-1), .n_vocab s.model (E.n_vocab s.model),
    .sample_temp s.ctx s.params.temp, .sample_top_p s.ctx s.params.top_p 1,
    .sample_token s.ctx tok, .token_eos s.model (E.token_eos s.model)]

/-- The effects of the second half of one loop iteration (lines 121-128): the
detokenisation of `tok` and its feed-back decode at position `pos` with result
`rc`. -/
def feedback_events (E : Engine) (s : llama_context) (tok : llama_token) (pos rc : Int) :
    List Event :=
  [.token_to_piece s.model tok 8 (E.token_to_piece s.model tok 8).1,
    .decode s.ctx [tok] pos 0 rc]

/-! ## Concrete engines and worlds -/

/-- A mock engine: model `7`, context `9`, a two-token prompt, every decode
succeeds, and sampling yields token `5`, then token `6`, then the end-of-sequence
token `2`.  The piece of token `5` has 9 bytes, the piece of token `6` has 2. -/
def mockEngine : Engine :=
  { load_model := fun _ _ => 7
    new_context := fun _ _ _ _ _ => 9
    tokenize := fun _ _ _ _ _ _ _ => (2, [1, 15])
    decode := fun _ _ _ _ _ => 0
    sample_token := fun tr _ =>
      if (sampled tr).length = 0 then 5 else if (sampled tr).length = 1 then 6 else 2
    n_vocab := fun _ => 32
    token_eos := fun _ => 2
    piece := fun _ t => if t = 5 then "123456789" else if t = 6 then "ab" else ""
    default_model := "" }

/-- A mock engine whose model load fails. -/
def noModelEngine : Engine :=
  { mockEngine with load_model := fun _ _ => 0 }

/-- A mock engine whose model load succeeds and whose context creation fails. -/
def noContextEngine : Engine :=
  { mockEngine with new_context := fun _ _ _ _ _ => 0 }

/-- A mock engine whose first feed-back decode fails; the prompt decode (the second
effect of a call on the empty trace of a ready session) succeeds. -/
def decodeFailEngine : Engine :=
  { mockEngine with
    decode := fun _ _ toks _ _ => if toks.length = 1 then 1 else 0
    sample_token := fun _ _ => 6 }

/-- The initial world: nothing acquired, no session. -/
def emptyWorld : World := ⟨[], []⟩

/-- The world after `llama_init` of `mockEngine` on `"m.gguf"` in `emptyWorld`:
one ready session at address `1`. -/
def readyWorld : World :=
  { trace := [.new_session 1, .backend_init false, .load_model "m.gguf" 7,
      .new_context 7 2048 512 4 9]
    heap := [(1, ⟨7, 9, ⟨"m.gguf", 2048, 512, 4, ⟨7, 1⟩, ⟨9, 1⟩, 100⟩, true⟩)] }

/-- A world holding a live session record whose validity flag is false. -/
def invalidWorld : World :=
  { trace := []
    heap := [(1, llama_context.llama_context "")] }

/-- The session record of `readyWorld`. -/
def readySession : llama_context :=
  ⟨7, 9, ⟨"m.gguf", 2048, 512, 4, ⟨7, 1⟩, ⟨9, 1⟩, 100⟩, true⟩

/-- The effects of tokenising `"hi"` and decoding its two tokens in `readyWorld`. -/
def promptEvents : List Event :=
  [.tokenize 7 "hi" 2 3 true false 2, .decode 9 [1, 15] 0 0 0]

/-- The world after `llama_generate_text mockEngine 1 "hi" 1` in `readyWorld`: one
iteration, which samples token `5`. -/
def worldAfterOne : World :=
  { trace := readyWorld.trace ++ promptEvents ++ sampling_events mockEngine readySession 5
      ++ feedback_events mockEngine readySession 5 2 0
    heap := readyWorld.heap }

/-- The world after `llama_generate_text mockEngine 1 "hi" 2` in `readyWorld`: two
iterations, which sample the tokens `5` and `6`. -/
def worldAfterTwo : World :=
  { trace := worldAfterOne.trace ++ sampling_events mockEngine readySession 6
      ++ feedback_events mockEngine readySession 6 3 0
    heap := readyWorld.heap }

/-- The world after `llama_generate_text mockEngine 1 "hi" 5` in `readyWorld`: the
third iteration samples the end-of-sequence token `2`. -/
def worldAfterEos : World :=
  { trace := worldAfterTwo.trace ++ sampling_events mockEngine readySession 2
    heap := readyWorld.heap }

/-- The world after `llama_generate_text decodeFailEngine 1 "hi" 5` in `readyWorld`:
token `6` is sampled, its text appended, and its feed-back decode fails. -/
def worldAfterFailure : World :=
  { trace := readyWorld.trace ++ promptEvents
      ++ sampling_events decodeFailEngine readySession 6
      ++ feedback_events decodeFailEngine readySession 6 2 1
    heap := readyWorld.heap }

/-- A mock engine like `mockEngine` whose token `5` has the three-byte piece
`a NUL b` and whose token `6` has the piece `"cd"`. -/
def nulEngine : Engine :=
  { mockEngine with
    piece := fun _ t => if t = 5 then String.mk ['a', NUL, 'b'] else if t = 6 then "cd" else "" }

/-- A mock engine like `decodeFailEngine` whose tokens have the three-byte piece
`a NUL b`. -/
def nulDecodeFailEngine : Engine :=
  { decodeFailEngine with piece := fun _ _ => String.mk ['a', NUL, 'b'] }

/-- A mock engine that never ends a generation: every sample is token `6` and every
decode succeeds. -/
def steadyEngine : Engine :=
  { mockEngine with sample_token := fun _ _ => 6 }

/-- A mock engine whose context creation returns the address `1`. -/
def recordContextEngine : Engine :=
  { mockEngine with new_context := fun _ _ _ _ _ => 1 }

/-- The world after `llama_generate_text nulEngine 1 "hi" 5` in `readyWorld`. -/
def worldNulEos : World :=
  { trace := readyWorld.trace ++ promptEvents
      ++ sampling_events nulEngine readySession 5 ++ feedback_events nulEngine readySession 5 2 0
      ++ sampling_events nulEngine readySession 6 ++ feedback_events nulEngine readySession 6 3 0
      ++ sampling_events nulEngine readySession 2
    heap := readyWorld.heap }

/-- The world after `llama_generate_text nulDecodeFailEngine 1 "hi" 5` in
`readyWorld`. -/
def worldNulFailure : World :=
  { trace := readyWorld.trace ++ promptEvents
      ++ sampling_events nulDecodeFailEngine readySession 6
      ++ feedback_events nulDecodeFailEngine readySession 6 2 1
    heap := readyWorld.heap }

/-- The world after `llama_generate_text steadyEngine 1 "hi" 0` in `readyWorld`: one
hundred iterations, each sampling token `6` and feeding it back at the next
position. -/
def worldAfterHundred : World :=
  { trace := readyWorld.trace ++ promptEvents
      ++ (List.range 100).foldr
        (fun i rest => sampling_events steadyEngine readySession 6
          ++ feedback_events steadyEngine readySession 6 ((2 + i : Nat) : Int) 0 ++ rest) []
    heap := readyWorld.heap }

/-- The world after `llama_init recordContextEngine "m.gguf"` in `invalidWorld`: a
ready session at address `2` whose context pointer is the address `1` of the live
record of `invalidWorld`. -/
def nestedWorld : World :=
  { trace := [.new_session 2, .backend_init false, .load_model "m.gguf" 7,
      .new_context 7 2048 512 4 1]
    heap := [(2, ⟨7, 1, ⟨"m.gguf", 2048, 512, 4, ⟨7, 1⟩, ⟨9, 1⟩, 100⟩, true⟩),
      (1, llama_context.llama_context "")] }

/-- The world after `llama_free 2` in `nestedWorld`: the inner call deleted the
record at `1` and released the backend, then the outer call released the model,
deleted the record at `2` and released the backend again. -/
def releasedWorld : World :=
  { trace := nestedWorld.trace ++ [.delete_session 1, .backend_free, .free_model 7,
      .delete_session 2, .backend_free]
    heap := [] }

/-! ## Auxiliary lemmas -/

theorem c_str_of_nul_free (s : String) (h : NUL ∉ s.data) : c_str s = s := by
  have hw : s.data.takeWhile (fun c => c != NUL) = s.data := by
    rw [List.takeWhile_eq_self_iff]
    intro c hc
    have : c ≠ NUL := fun e => h (e ▸ hc)
    simpa using this
  unfold c_str
  rw [hw]

theorem lookup_self (a : Nat) (s : llama_context) (heap : List (Nat × llama_context)) :
    List.lookup a ((a, s) :: heap) = some s := by
  simp [List.lookup]

/-- Shape of a successful `llama_init`: the handle is the fresh address, the trace
grew by the four acquisitions, and the new record is valid and holds the path. -/
theorem llama_init_success (E : Engine) (p : String) (w w1 : World) (h : Nat)
    (hinit : llama_init E (some p) w = .ok h w1) (hh : h ≠ 0) :
    ∃ m c, m ≠ 0 ∧ c ≠ 0 ∧ h = fresh w.heap ∧
      w1.trace = w.trace ++ [.new_session h, .backend_init false, .load_model p m,
        .new_context m 2048 512 4 c] ∧
      w1.heap = (h, ⟨m, c, ⟨p, 2048, 512, 4, ⟨7, 1⟩, ⟨9, 1⟩, 100⟩, true⟩) :: w.heap := by
  simp only [llama_init] at hinit
  split at hinit
  · simp only [Outcome.ok.injEq] at hinit
    exact absurd hinit.1.symm hh
  · split at hinit
    · simp only [Outcome.ok.injEq] at hinit
      exact absurd hinit.1.symm hh
    · rename_i hm hc
      simp only [Outcome.ok.injEq] at hinit
      obtain ⟨h1, h2⟩ := hinit
      subst h1
      subst h2
      exact ⟨_, _, hm, hc, rfl, by simp [llama_context.llama_context], rfl⟩

/-! ## Invalid inputs -/

/-- Claim C4: on an invalid input every operation returns its failure sentinel in an
unchanged world (no engine call, nothing acquired): `llama_init` on a null path
returns null; `llama_generate_text` returns null on a null handle, on a live record
whose validity flag is false, and on a null prompt; `llama_get_model_info` returns
null on a null handle and on a live record whose validity flag is false. -/
theorem invalid_input_returns_sentinel (E : Engine) (w : World) :
    llama_init E none w = .ok 0 w ∧
    (∀ prompt max_tokens, llama_generate_text E 0 prompt max_tokens w = .ok none w) ∧
    (∀ h s prompt max_tokens, w.heap.lookup h = some s → s.is_valid = false →
      llama_generate_text E h prompt max_tokens w = .ok none w) ∧
    (∀ h s max_tokens, w.heap.lookup h = some s →
      llama_generate_text E h none max_tokens w = .ok none w) ∧
    llama_get_model_info 0 w = .ok none w ∧
    (∀ h s, w.heap.lookup h = some s → s.is_valid = false →
      llama_get_model_info h w = .ok none w) := by
  refine ⟨rfl, ?_, ?_, ?_, rfl, ?_⟩
  · intro prompt max_tokens
    simp [llama_generate_text]
  · intro h s prompt max_tokens hs hv
    simp [llama_generate_text, hs, hv]
  · intro h s max_tokens hs
    simp [llama_generate_text, hs]
  · intro h s hs hv
    simp [llama_get_model_info, hs, hv]

/-- Instance of C4: in `invalidWorld` the record at handle `1` is live with a false
validity flag, and generation on it returns null leaving the world as it was. -/
theorem invalid_input_returns_sentinel_witness :
    invalidWorld.heap.lookup 1 = some (llama_context.llama_context "") ∧
    llama_generate_text mockEngine 1 (some "hi") 5 invalidWorld = .ok none invalidWorld :=
  ⟨by decide,
    (invalid_input_returns_sentinel mockEngine invalidWorld).2.2.1 1
      (llama_context.llama_context "") (some "hi") 5 (by decide) (by decide)⟩

/-! ## Construction -/

/-- Claim C6: when the model load succeeds (model `m`) and the context creation fails,
`llama_init` returns null after exactly these effects: record allocation, backend
initialisation, the load, the failed context creation, one `llama_free_model` on
`m`, and the deletion of the record; `m` is released exactly once and the heap is
as before. -/
theorem init_context_failure_releases_model (E : Engine) (w : World) (p : String)
    (a m : Nat) (ha : a = fresh w.heap)
    (hm : m = E.load_model (w.trace ++ [.new_session a, .backend_init false]) p)
    (hload : m ≠ 0)
    (hctx : E.new_context (w.trace ++ [.new_session a, .backend_init false, .load_model p m])
      m 2048 512 4 = 0) :
    llama_init E (some p) w = .ok 0
      { trace := w.trace ++ [.new_session a, .backend_init false, .load_model p m,
          .new_context m 2048 512 4 0, .free_model m, .delete_session a]
        heap := w.heap } ∧
    List.count (Event.free_model m) [.new_session a, .backend_init false, .load_model p m,
      .new_context m 2048 512 4 0, .free_model m, .delete_session a] = 1 := by
  subst ha
  constructor
  · simp only [llama_init, llama_context.llama_context, List.append_assoc, List.cons_append,
      List.nil_append, ← hm, if_neg hload, hctx, if_true]
  · simp [List.count_cons]

/-- Instance of C6 on `noContextEngine`: the model `7` is loaded, the context
creation fails, and `llama_init` returns null with one `llama_free_model 7`. -/
theorem init_context_failure_releases_model_witness :
    llama_init noContextEngine (some "m.gguf") emptyWorld = .ok 0
      { trace := [.new_session 1, .backend_init false, .load_model "m.gguf" 7,
          .new_context 7 2048 512 4 0, .free_model 7, .delete_session 1]
        heap := [] } ∧
    List.count (Event.free_model 7) [.new_session 1, .backend_init false,
      .load_model "m.gguf" 7, .new_context 7 2048 512 4 0, .free_model 7,
      .delete_session 1] = 1 :=
  init_context_failure_releases_model noContextEngine emptyWorld "m.gguf" 1 7
    (by decide) (by decide) (by decide) (by decide)

/-! ## Teardown -/

/-- Claim C7, evaluated: on the ready session of `readyWorld` (engine context `9`),
`llama_free` re-enters itself on the pointer `9`, which is no session record, so the
call is undefined, whatever the bound on the recursion, and no engine context
release is made.  When the context pointer
is the address of a live record (`nestedWorld`), the inner call deletes that record
and releases the backend, and the outer call releases the model, deletes the session
record and releases the backend a second time: no context is released and the
backend counter ends at `-1`. -/
theorem free_reenters_itself :
    llama_init mockEngine (some "m.gguf") emptyWorld = .ok 1 readyWorld ∧
    readyWorld.heap.lookup 9 = none ∧
    llama_free 1 readyWorld = .undefined ∧
    (∀ depth, llama_free_rec (depth + 2) 1 readyWorld = .undefined) ∧
    llama_init recordContextEngine (some "m.gguf") invalidWorld = .ok 2 nestedWorld ∧
    llama_free 2 nestedWorld = .ok () releasedWorld ∧
    releasedWorld.trace.drop nestedWorld.trace.length =
      [.delete_session 1, .backend_free, .free_model 7, .delete_session 2, .backend_free] ∧
    (counters releasedWorld.trace).backend = -1 ∧
    (counters releasedWorld.trace).contexts = 1 ∧
    counters invalidWorld.trace = ⟨0, 0, 0, 0⟩ := by
  refine ⟨by decide, by decide, by decide, ?_, by decide, by decide, by decide, by decide,
    by decide, by decide⟩
  intro depth
  have hrec : readyWorld.heap.lookup 1 = some readySession := by decide
  have hctx : readyWorld.heap.lookup 9 = none := by decide
  simp [llama_free_rec, hrec, hctx, readySession]

/-! ## Metadata query -/

/-- Claim C8: on the session returned by a successful `llama_init` on path `p`,
`llama_get_model_info` returns the text `Model: p`, `Context size: 2048`,
`Batch size: 512`, `Threads: 4` (one per line) and leaves the world, hence the
trace of engine calls, unchanged. -/
theorem model_info_of_ready_session (E : Engine) (p : String) (w w1 : World) (h : Nat)
    (hinit : llama_init E (some p) w = .ok h w1) (hh : h ≠ 0) (hp : NUL ∉ p.data) :
    llama_get_model_info h w1 =
      .ok (some ("Model: " ++ p ++ "\nContext size: 2048\nBatch size: 512\nThreads: 4\n")) w1
      := by
  obtain ⟨m, c, -, -, -, -, hheap⟩ := llama_init_success E p w w1 h hinit hh
  have h2048 : toString (2048 : Int) = "2048" := by decide
  have h512 : toString (512 : Int) = "512" := by decide
  have h4 : toString (4 : Int) = "4" := by decide
  have htext : "Model: " ++ p ++ "\n" ++ ("Context size: " ++ "2048" ++ "\n") ++
      ("Batch size: " ++ "512" ++ "\n") ++ ("Threads: " ++ "4" ++ "\n") =
      "Model: " ++ p ++ "\nContext size: 2048\nBatch size: 512\nThreads: 4\n" := by
    apply String.ext
    simp [String.data_append]
  have hnul : NUL ∉
      ("Model: " ++ p ++ "\nContext size: 2048\nBatch size: 512\nThreads: 4\n").data := by
    simp only [String.data_append, List.mem_append, not_or]
    exact ⟨⟨by decide, hp⟩, by decide⟩
  simp only [llama_get_model_info, if_neg hh, hheap, lookup_self, h2048, h512, h4, htext,
    c_str_of_nul_free _ hnul]
  rfl

/-- Instance of C8 on `mockEngine` and the path `"m.gguf"`. -/
theorem model_info_of_ready_session_witness :
    llama_init mockEngine (some "m.gguf") emptyWorld = .ok 1 readyWorld ∧
    NUL ∉ "m.gguf".data ∧
    llama_get_model_info 1 readyWorld =
      .ok (some ("Model: " ++ "m.gguf" ++
        "\nContext size: 2048\nBatch size: 512\nThreads: 4\n")) readyWorld :=
  ⟨by decide, by decide,
    model_info_of_ready_session mockEngine "m.gguf" emptyWorld readyWorld 1 (by decide)
      (by decide) (by decide)⟩

/-! ## The generation loop -/

theorem string_append_full (r text : String) :
    string_append r text ((text.length : Int)).toNat = r ++ text := by
  unfold string_append
  rw [Int.toNat_ofNat, String.length, List.take_length]

theorem token_to_piece_pos (E : Engine) (m : Nat) (t : llama_token) (r : String)
    (h : (E.token_to_piece m t 8).1 > 0) :
    string_append r (E.token_to_piece m t 8).2 (E.token_to_piece m t 8).1.toNat
      = r ++ E.piece m t := by
  unfold Engine.token_to_piece at h ⊢
  split
  · exact string_append_full r _
  · rename_i hlen
    rw [if_neg hlen] at h
    simp at h
    omega

theorem sampled_append (a b : List Event) : sampled (a ++ b) = sampled a ++ sampled b := by
  simp [sampled, List.filterMap_append]

theorem appended_append (E : Engine) (a b : List Event) :
    appended E (a ++ b) = appended E a ++ appended E b := by
  simp [appended, List.filterMap_append]

theorem sampled_sampling_events (E : Engine) (s : llama_context) (tok : llama_token) :
    sampled (sampling_events E s tok) = [tok] := by
  simp [sampled, sampling_events]

theorem appended_sampling_events (E : Engine) (s : llama_context) (tok : llama_token) :
    appended E (sampling_events E s tok) = [] := by
  simp [appended, sampling_events]

theorem sampled_feedback_events (E : Engine) (s : llama_context) (tok : llama_token)
    (pos rc : Int) : sampled (feedback_events E s tok pos rc) = [] := by
  simp [sampled, feedback_events]

theorem appended_feedback_events (E : Engine) (s : llama_context) (tok : llama_token)
    (pos rc : Int) :
    appended E (feedback_events E s tok pos rc) =
      if (E.token_to_piece s.model tok 8).1 > 0 then [E.piece s.model tok] else [] := by
  simp only [appended, feedback_events, List.filterMap_cons, List.filterMap_nil]
  split <;> simp_all

theorem failed_sampling_events (E : Engine) (s : llama_context) (tok : llama_token) :
    ∀ e ∈ sampling_events E s tok, e.isFailedDecode = false := by
  simp [sampling_events, Event.isFailedDecode]

theorem failed_feedback_events (E : Engine) (s : llama_context) (tok : llama_token)
    (pos : Int) : ∀ e ∈ feedback_events E s tok pos 0, e.isFailedDecode = false := by
  simp [feedback_events, Event.isFailedDecode]

theorem generate_loop_throw (E : Engine) (s : llama_context) (n k i : Nat) (r : String)
    (tr : List Event) (hv : E.n_vocab s.model < 0) :
    generate_loop E s n (k + 1) i r tr
      = (none, tr ++ [.get_logits_ith s.ctx (-1), .n_vocab s.model (E.n_vocab s.model)]) := by
  simp only [generate_loop, if_pos hv]

/-- One run of the loop from any state, for a vocabulary size that is not negative:
the effects `δ` it adds, the text it returns (the given text followed by the appended
token texts), the bound on the samples, where it stops, and the number of samples
when nothing stops it. -/
theorem generate_loop_spec (E : Engine) (s : llama_context) (n : Nat)
    (hv : ¬ E.n_vocab s.model < 0) :
    ∀ (k i : Nat) (r : String) (tr : List Event), ∃ δ,
      generate_loop E s n k i r tr
        = (some ((appended E δ).foldl (fun x y => x ++ y) r), tr ++ δ) ∧
      (sampled δ).length ≤ k ∧
      (appended E δ).length ≤ (sampled δ).length ∧
      (E.token_eos s.model ∈ sampled δ →
        ∃ δ1, δ = δ1 ++ sampling_events E s (E.token_eos s.model) ∧
          E.token_eos s.model ∉ sampled δ1) ∧
      ((∃ e ∈ δ, e.isFailedDecode = true) →
        ∃ δ1 t pos rc, rc ≠ 0 ∧ δ = δ1 ++ [.decode s.ctx [t] pos 0 rc] ∧
          ∀ e ∈ δ1, e.isFailedDecode = false) ∧
      (E.token_eos s.model ∉ sampled δ → (∀ e ∈ δ, e.isFailedDecode = false) →
        (sampled δ).length = k) := by
  intro k
  induction k with
  | zero =>
    intro i r tr
    exact ⟨[], by simp [generate_loop, appended], by simp [sampled], by simp [appended],
      by simp [sampled], by simp, by simp [sampled]⟩
  | succ k ih =>
    intro i r tr
    simp only [generate_loop, if_neg hv]
    generalize E.sample_token _ s.ctx = tok
    split
    · rename_i heos
      refine ⟨sampling_events E s tok, ?_, ?_, ?_, ?_, ?_, ?_⟩
      · rw [appended_sampling_events]
        simp [sampling_events]
      · simp [sampled_sampling_events]
      · simp [appended_sampling_events]
      · intro _
        exact ⟨[], by simp [heos], by simp [sampled]⟩
      · rintro ⟨e, he, hf⟩
        rw [failed_sampling_events E s tok e he] at hf
        cases hf
      · intro hno
        exact absurd (by simp [sampled_sampling_events, heos]) hno
    · rename_i hne
      generalize hrc : E.decode _ s.ctx [tok] _ 0 = rc
      split
      · rename_i hfail
        refine ⟨sampling_events E s tok ++ feedback_events E s tok (llama_pos_of (n + i)) rc,
          ?_, ?_, ?_, ?_, ?_, ?_⟩
        · rw [appended_append, appended_sampling_events, appended_feedback_events]
          by_cases hp : (E.token_to_piece s.model tok 8).1 > 0
          · simp [hp, token_to_piece_pos, sampling_events, feedback_events]
          · simp [hp, sampling_events, feedback_events]
        · simp [sampled_append, sampled_sampling_events, sampled_feedback_events]
        · rw [appended_append, appended_sampling_events, appended_feedback_events,
            sampled_append, sampled_sampling_events, sampled_feedback_events]
          split <;> simp
        · intro hmem
          simp [sampled_append, sampled_sampling_events, sampled_feedback_events] at hmem
          exact absurd hmem.symm hne
        · intro _
          refine ⟨sampling_events E s tok ++
            [.token_to_piece s.model tok 8 (E.token_to_piece s.model tok 8).1], tok,
            llama_pos_of (n + i), rc, hfail, by simp [feedback_events], ?_⟩
          intro e he
          rcases List.mem_append.mp he with he | he
          · exact failed_sampling_events E s tok e he
          · simp at he
            subst he
            rfl
        · intro _ hall
          have hbad := hall (.decode s.ctx [tok] (llama_pos_of (n + i)) 0 rc)
            (by simp [feedback_events])
          simp [Event.isFailedDecode] at hbad
          exact absurd hbad hfail
      · rename_i hok
        have hrc0 : rc = 0 := by simpa using hok
        subst hrc0
        obtain ⟨δ, heq, h2, h3, h4, h5, h6⟩ := ih (i + 1)
          (if (E.token_to_piece s.model tok 8).1 > 0 then
            string_append r (E.token_to_piece s.model tok 8).2
              (E.token_to_piece s.model tok 8).1.toNat
          else r)
          (tr ++ sampling_events E s tok ++ feedback_events E s tok (llama_pos_of (n + i)) 0)
        refine ⟨sampling_events E s tok ++ feedback_events E s tok (llama_pos_of (n + i)) 0
          ++ δ, ?_, ?_, ?_, ?_, ?_, ?_⟩
        · have hshape : tr ++ [Event.get_logits_ith s.ctx (-1),
              Event.n_vocab s.model (E.n_vocab s.model)] ++
              [Event.sample_temp s.ctx s.params.temp,
                Event.sample_top_p s.ctx s.params.top_p 1] ++
              [Event.sample_token s.ctx tok, Event.token_eos s.model (E.token_eos s.model)] ++
              [Event.token_to_piece s.model tok 8 (E.token_to_piece s.model tok 8).1] ++
              [Event.decode s.ctx [tok] (llama_pos_of (n + i)) 0 0] =
              tr ++ sampling_events E s tok ++
                feedback_events E s tok (llama_pos_of (n + i)) 0 := by
            simp [sampling_events, feedback_events]
          rw [hshape, heq]
          rw [appended_append, appended_append, appended_sampling_events,
            appended_feedback_events]
          by_cases hp : (E.token_to_piece s.model tok 8).1 > 0
          · simp [hp, token_to_piece_pos, List.append_assoc]
          · simp [hp, List.append_assoc]
        · simp [sampled_append, sampled_sampling_events, sampled_feedback_events]
          omega
        · rw [appended_append, appended_append, appended_sampling_events,
            appended_feedback_events, sampled_append, sampled_append,
            sampled_sampling_events, sampled_feedback_events]
          split <;> simp <;> omega
        · intro hmem
          simp only [sampled_append, sampled_sampling_events, sampled_feedback_events,
            List.append_nil, List.singleton_append, List.mem_cons] at hmem
          rcases hmem with hmem | hmem
          · exact absurd hmem.symm hne
          · obtain ⟨δ1, hδ, hnot⟩ := h4 hmem
            refine ⟨sampling_events E s tok ++
              feedback_events E s tok (llama_pos_of (n + i)) 0 ++ δ1, ?_, ?_⟩
            · rw [hδ]; simp [List.append_assoc]
            · simp only [sampled_append, sampled_sampling_events, sampled_feedback_events,
                List.append_nil, List.singleton_append, List.mem_cons, not_or]
              exact ⟨fun e => hne e.symm, hnot⟩
        · rintro ⟨e, he, hf⟩
          have hin : ∃ e ∈ δ, e.isFailedDecode = true := by
            rcases List.mem_append.mp he with he | he
            · rcases List.mem_append.mp he with he | he
              · rw [failed_sampling_events E s tok e he] at hf
                cases hf
              · rw [failed_feedback_events E s tok _ e he] at hf
                cases hf
            · exact ⟨e, he, hf⟩
          obtain ⟨δ1, t, pos, rc, hrc1, hδ, hall⟩ := h5 hin
          refine ⟨sampling_events E s tok ++
            feedback_events E s tok (llama_pos_of (n + i)) 0 ++ δ1, t, pos, rc, hrc1, ?_, ?_⟩
          · rw [hδ]; simp [List.append_assoc]
          · intro e he
            rcases List.mem_append.mp he with he | he
            · rcases List.mem_append.mp he with he | he
              · exact failed_sampling_events E s tok e he
              · exact failed_feedback_events E s tok _ e he
            · exact hall e he
        · intro hno hall
          have hno1 : E.token_eos s.model ∉ sampled δ := by
            intro hmem
            apply hno
            simp [sampled_append, sampled_sampling_events, sampled_feedback_events, hmem]
          have hall1 : ∀ e ∈ δ, e.isFailedDecode = false := fun e he =>
            hall e (List.mem_append.mpr (Or.inr he))
          have := h6 hno1 hall1
          simp [sampled_append, sampled_sampling_events, sampled_feedback_events, this]

/-- One call of `llama_generate_text` on a live record: the trace grows by `δ`; either
the call returns null and nothing was sampled, or `δ` is the tokenisation and the
successful prompt decode followed by one run of the loop, and the result is the C
text of what the loop accumulated. -/
theorem generate_text_run (E : Engine) (w w1 : World) (h : Nat) (s : llama_context)
    (prompt : Option String) (max_tokens : Int) (ret : Option String)
    (hs : w.heap.lookup h = some s)
    (hrun : llama_generate_text E h prompt max_tokens w = .ok ret w1) :
    ∃ δ, w1.trace = w.trace ++ δ ∧
      ((ret = none ∧ sampled δ = [] ∧ appended E δ = []) ∨
        (∃ pre δl, δ = pre ++ δl ∧ sampled pre = [] ∧ appended E pre = [] ∧
          (∀ e ∈ pre, e.isFailedDecode = false) ∧
          ret = some (c_str (String.join (appended E δl))) ∧
          (sampled δl).length ≤ (max_gen_tokens s max_tokens).toNat ∧
          (appended E δl).length ≤ (sampled δl).length ∧
          (E.token_eos s.model ∈ sampled δl →
            ∃ δ1, δl = δ1 ++ sampling_events E s (E.token_eos s.model) ∧
              E.token_eos s.model ∉ sampled δ1) ∧
          ((∃ e ∈ δl, e.isFailedDecode = true) →
            ∃ δ1 t pos rc, rc ≠ 0 ∧ δl = δ1 ++ [.decode s.ctx [t] pos 0 rc] ∧
              ∀ e ∈ δ1, e.isFailedDecode = false) ∧
          (E.token_eos s.model ∉ sampled δl → (∀ e ∈ δl, e.isFailedDecode = false) →
            (sampled δl).length = (max_gen_tokens s max_tokens).toNat))) := by
  unfold llama_generate_text at hrun
  by_cases h0 : h = 0
  · rw [if_pos h0] at hrun
    simp only [Outcome.ok.injEq] at hrun
    exact ⟨[], by simp [← hrun.2], Or.inl ⟨hrun.1.symm, rfl, rfl⟩⟩
  · rw [if_neg h0, hs] at hrun
    simp only at hrun
    by_cases hvalid : s.is_valid = false
    · rw [if_pos hvalid] at hrun
      simp only [Outcome.ok.injEq] at hrun
      exact ⟨[], by simp [← hrun.2], Or.inl ⟨hrun.1.symm, rfl, rfl⟩⟩
    · rw [if_neg hvalid] at hrun
      cases prompt with
      | none =>
        simp only [Outcome.ok.injEq] at hrun
        exact ⟨[], by simp [← hrun.2], Or.inl ⟨hrun.1.symm, rfl, rfl⟩⟩
      | some text =>
        simp only at hrun
        generalize E.tokenize w.trace s.model text text.length (text.length + 1) true false
          = tk at hrun
        split at hrun
        · simp only [Outcome.ok.injEq] at hrun
          exact ⟨_, by rw [← hrun.2], Or.inl ⟨hrun.1.symm, by simp [sampled],
            by simp [appended]⟩⟩
        · generalize E.decode _ s.ctx _ 0 0 = rc at hrun
          split at hrun
          · simp only [Outcome.ok.injEq] at hrun
            refine ⟨[.tokenize s.model text text.length (text.length + 1) true false tk.1,
              .decode s.ctx (vector_resize (vector_resize tk.2 (text.length + 1)) tk.1.toNat)
                0 0 rc], by simp [← hrun.2], Or.inl ⟨hrun.1.symm, ?_, ?_⟩⟩
            · simp [sampled]
            · simp [appended]
          · rename_i hrc
            have hrc0 : rc = 0 := not_not.mp hrc
            have hpre : ∀ e ∈ [Event.tokenize s.model text text.length (text.length + 1) true
                false tk.1, Event.decode s.ctx
                  (vector_resize (vector_resize tk.2 (text.length + 1)) tk.1.toNat) 0 0 rc],
                e.isFailedDecode = false := by
              intro e he
              simp only [List.mem_cons, List.mem_singleton, List.not_mem_nil, or_false] at he
              rcases he with rfl | rfl
              · rfl
              · simp [Event.isFailedDecode, hrc0]
            by_cases hv : E.n_vocab s.model < 0
            · generalize hk : (max_gen_tokens s max_tokens).toNat = k at hrun
              cases k with
              | zero =>
                simp only [generate_loop, Outcome.ok.injEq] at hrun
                refine ⟨[.tokenize s.model text text.length (text.length + 1) true false tk.1,
                  .decode s.ctx (vector_resize (vector_resize tk.2 (text.length + 1))
                    tk.1.toNat) 0 0 rc] ++ [], by simp [← hrun.2],
                  Or.inr ⟨_, [], rfl, ?_, ?_, hpre, ?_, ?_, ?_, ?_, ?_, ?_⟩⟩
                · simp [sampled]
                · simp [appended]
                · rw [← hrun.1]
                  simp [appended, String.join]
                · simp [sampled]
                · simp [appended, sampled]
                · simp [sampled]
                · simp
                · simp [sampled]
              | succ k =>
                rw [generate_loop_throw E s _ k 0 "" _ hv] at hrun
                simp only [Outcome.ok.injEq] at hrun
                refine ⟨[.tokenize s.model text text.length (text.length + 1) true false tk.1,
                  .decode s.ctx (vector_resize (vector_resize tk.2 (text.length + 1))
                    tk.1.toNat) 0 0 rc, .get_logits_ith s.ctx (-1),
                  .n_vocab s.model (E.n_vocab s.model)], by simp [← hrun.2],
                  Or.inl ⟨hrun.1.symm, ?_, ?_⟩⟩
                · simp [sampled]
                · simp [appended]
            · obtain ⟨δl, heq, h2, h3, h4, h5, h6⟩ := generate_loop_spec E s
                (vector_resize (vector_resize tk.2 (text.length + 1)) tk.1.toNat).length hv
                (max_gen_tokens s max_tokens).toNat 0 ""
                (w.trace ++
                  [.tokenize s.model text text.length (text.length + 1) true false tk.1] ++
                  [.decode s.ctx (vector_resize (vector_resize tk.2 (text.length + 1))
                    tk.1.toNat) 0 0 rc])
              rw [heq] at hrun
              simp only [Outcome.ok.injEq] at hrun
              refine ⟨[.tokenize s.model text text.length (text.length + 1) true false tk.1,
                .decode s.ctx (vector_resize (vector_resize tk.2 (text.length + 1)) tk.1.toNat)
                  0 0 rc] ++ δl, by simp [← hrun.2],
                Or.inr ⟨_, δl, rfl, ?_, ?_, hpre, hrun.1.symm, h2, h3, h4, h5, h6⟩⟩
              · simp [sampled]
              · simp [appended]

/-! ## Text generation -/

/-- Claim C1: in every call of `llama_generate_text` on a live session record, whatever
the engine answers, the number of sampled tokens is at most the effective budget
(`max_tokens` when positive, else the record's `n_predict`), and the number of
appended token texts is at most the number of sampled tokens.  The budget is the one
used: a call that returns text without sampling the end-of-sequence token and
without a failed decode samples exactly that many tokens.  The constructor sets
`n_predict` to 100, and so does every record returned by `llama_init`. -/
theorem sampled_tokens_within_budget (E : Engine) (w w1 : World) (h : Nat)
    (s : llama_context) (prompt : Option String) (max_tokens : Int) (ret : Option String)
    (hs : w.heap.lookup h = some s)
    (hrun : llama_generate_text E h prompt max_tokens w = .ok ret w1) :
    (sampled (w1.trace.drop w.trace.length)).length
      ≤ (if max_tokens > 0 then max_tokens else s.params.n_predict).toNat ∧
    (appended E (w1.trace.drop w.trace.length)).length
      ≤ (sampled (w1.trace.drop w.trace.length)).length ∧
    (ret ≠ none → E.token_eos s.model ∉ sampled (w1.trace.drop w.trace.length) →
      (∀ e ∈ w1.trace.drop w.trace.length, e.isFailedDecode = false) →
      (sampled (w1.trace.drop w.trace.length)).length
        = (if max_tokens > 0 then max_tokens else s.params.n_predict).toNat) ∧
    (llama_context.llama_context E.default_model).params.n_predict = 100 ∧
    (∀ p w0 w2 h0, llama_init E (some p) w0 = .ok h0 w2 → h0 ≠ 0 →
      ∃ s0, w2.heap.lookup h0 = some s0 ∧ s0.is_valid = true ∧ s0.params.n_predict = 100) := by
  obtain ⟨δ, htr, hcase⟩ := generate_text_run E w w1 h s prompt max_tokens ret hs hrun
  have hdrop : w1.trace.drop w.trace.length = δ := by
    rw [htr, List.drop_left]
  rw [hdrop]
  refine ⟨?_, ?_, ?_, rfl, ?_⟩
  · rcases hcase with ⟨-, hsam, -⟩ | ⟨pre, δl, hδ, hsam, -, -, -, hb, -, -, -, -⟩
    · simp [hsam]
    · rw [hδ, sampled_append, hsam]
      simpa [max_gen_tokens] using hb
  · rcases hcase with ⟨-, hsam, happ⟩ | ⟨pre, δl, hδ, hsam, happ, -, -, -, hb, -, -, -⟩
    · simp [hsam, happ]
    · rw [hδ, sampled_append, appended_append, hsam, happ]
      simpa using hb
  · intro hret hno hall
    rcases hcase with ⟨hnone, -, -⟩ | ⟨pre, δl, hδ, hsam, -, -, -, -, -, -, -, h6⟩
    · exact absurd hnone hret
    · rw [hδ, sampled_append, hsam, List.nil_append] at hno ⊢
      have hall1 : ∀ e ∈ δl, e.isFailedDecode = false := fun e he =>
        hall e (hδ ▸ List.mem_append.mpr (Or.inr he))
      simpa [max_gen_tokens] using h6 hno hall1
  · intro p w0 w2 h0 hinit hh0
    obtain ⟨m, c, -, -, -, -, hheap⟩ := llama_init_success E p w0 w2 h0 hinit hh0
    exact ⟨_, by rw [hheap]; exact lookup_self _ _ _, rfl, rfl⟩

set_option maxRecDepth 100000 in
/-- Instance of C1: with `max_tokens = 0` the budget is the default `n_predict = 100`
of the ready session, and `steadyEngine`, which never ends a generation, is sampled
exactly 100 times; with `max_tokens = 2` the mock engine is sampled twice. -/
theorem sampled_tokens_within_budget_witness :
    readyWorld.heap.lookup 1 = some readySession ∧
    llama_generate_text steadyEngine 1 (some "hi") 0 readyWorld
      = .ok (some (String.join (List.replicate 100 "ab"))) worldAfterHundred ∧
    (sampled (worldAfterHundred.trace.drop readyWorld.trace.length)).length
      = (if (0 : Int) > 0 then 0 else readySession.params.n_predict).toNat ∧
    (if (0 : Int) > 0 then 0 else readySession.params.n_predict).toNat = 100 ∧
    llama_generate_text mockEngine 1 (some "hi") 2 readyWorld = .ok (some "ab") worldAfterTwo ∧
    (sampled (worldAfterTwo.trace.drop readyWorld.trace.length)).length
      ≤ (if (2 : Int) > 0 then 2 else readySession.params.n_predict).toNat := by
  have hrun : llama_generate_text steadyEngine 1 (some "hi") 0 readyWorld
      = .ok (some (String.join (List.replicate 100 "ab"))) worldAfterHundred := by
    decide
  have hall : ∀ e ∈ worldAfterHundred.trace.drop readyWorld.trace.length,
      e.isFailedDecode = false := by
    have hb : (worldAfterHundred.trace.drop readyWorld.trace.length).all
        (fun e => !e.isFailedDecode) = true := by
      decide
    intro e he
    simpa using List.all_eq_true.mp hb e he
  exact ⟨by decide, hrun,
    (sampled_tokens_within_budget steadyEngine readyWorld worldAfterHundred 1 readySession
      (some "hi") 0 (some (String.join (List.replicate 100 "ab"))) (by decide)
      hrun).2.2.1 (by decide) (by decide) hall,
    by decide, by decide,
    (sampled_tokens_within_budget mockEngine readyWorld worldAfterTwo 1 readySession
      (some "hi") 2 (some "ab") (by decide) (by decide)).1⟩

/-- Claim C2 fails as stated: `nulEngine` samples token `5` (piece `a NUL b`), token
`6` (piece `"cd"`) and then the end-of-sequence token; both pieces are appended, and
the call returns `"a"`, not the accumulated text. -/
theorem eos_result_cut_at_nul :
    readyWorld.heap.lookup 1 = some readySession ∧
    llama_generate_text nulEngine 1 (some "hi") 5 readyWorld = .ok (some "a") worldNulEos ∧
    nulEngine.token_eos readySession.model
      ∈ sampled (worldNulEos.trace.drop readyWorld.trace.length) ∧
    appended nulEngine (worldNulEos.trace.drop readyWorld.trace.length)
      = [String.mk ['a', NUL, 'b'], "cd"] ∧
    (some "a" : Option String) ≠ some (String.join [String.mk ['a', NUL, 'b'], "cd"]) := by
  decide

/-- Claim C2 as amended: when a call of `llama_generate_text` samples the
end-of-sequence token, the call ends with the sampling effects of that step (no
detokenisation, no decode and no further sample follow), the end-of-sequence token
was not sampled before, and the call returns, as a non-null result, the C text of
the token texts appended by the earlier steps: the accumulated text up to its first
NUL, which is the accumulated text itself when it has no NUL. -/
theorem stops_at_end_of_sequence (E : Engine) (w w1 : World) (h : Nat)
    (s : llama_context) (prompt : Option String) (max_tokens : Int) (ret : Option String)
    (hs : w.heap.lookup h = some s)
    (hrun : llama_generate_text E h prompt max_tokens w = .ok ret w1)
    (heos : E.token_eos s.model ∈ sampled (w1.trace.drop w.trace.length)) :
    ∃ δ, w1.trace = w.trace ++ δ ++ sampling_events E s (E.token_eos s.model) ∧
      E.token_eos s.model ∉ sampled δ ∧
      ret = some (c_str (String.join (appended E δ))) ∧
      (NUL ∉ (String.join (appended E δ)).data → ret = some (String.join (appended E δ))) := by
  obtain ⟨δ, htr, hcase⟩ := generate_text_run E w w1 h s prompt max_tokens ret hs hrun
  have hdrop : w1.trace.drop w.trace.length = δ := by
    rw [htr, List.drop_left]
  rw [hdrop] at heos
  rcases hcase with ⟨-, hsam, -⟩ | ⟨pre, δl, hδ, hsam, happ, -, hret, -, -, h4, -⟩
  · rw [hsam] at heos
    cases heos
  · rw [hδ, sampled_append, hsam, List.nil_append] at heos
    obtain ⟨δ1, hδl, hnot⟩ := h4 heos
    have happ1 : appended E δl = appended E (pre ++ δ1) := by
      rw [hδl, appended_append, appended_append, happ, appended_sampling_events]
      simp
    refine ⟨pre ++ δ1, ?_, ?_, ?_, ?_⟩
    · rw [htr, hδ, hδl]
      simp [List.append_assoc]
    · rw [sampled_append, hsam]
      simpa using hnot
    · rw [← happ1]
      exact hret
    · intro hnul
      rw [← happ1] at hnul ⊢
      rw [hret, c_str_of_nul_free _ hnul]

/-- Instance of the amended C2: the mock engine samples `5`, `6` and then the end-of-sequence
token `2`; the run ends there and returns `"ab"`. -/
theorem stops_at_end_of_sequence_witness :
    llama_generate_text mockEngine 1 (some "hi") 5 readyWorld = .ok (some "ab") worldAfterEos ∧
    mockEngine.token_eos readySession.model
      ∈ sampled (worldAfterEos.trace.drop readyWorld.trace.length) ∧
    ∃ δ, worldAfterEos.trace = readyWorld.trace ++ δ
        ++ sampling_events mockEngine readySession (mockEngine.token_eos readySession.model) ∧
      mockEngine.token_eos readySession.model ∉ sampled δ ∧
      some "ab" = some (c_str (String.join (appended mockEngine δ))) ∧
      (NUL ∉ (String.join (appended mockEngine δ)).data →
        some "ab" = some (String.join (appended mockEngine δ))) :=
  ⟨by decide, by decide,
    stops_at_end_of_sequence mockEngine readyWorld worldAfterEos 1 readySession (some "hi") 5
      (some "ab") (by decide) (by decide) (by decide)⟩

/-- Claim C3 fails as stated: with `nulDecodeFailEngine` the piece `a NUL b` of token
`6` is appended (one text), the feed-back decode fails, and the call returns `"a"`,
not the accumulated text. -/
theorem failure_result_cut_at_nul :
    readyWorld.heap.lookup 1 = some readySession ∧
    llama_generate_text nulDecodeFailEngine 1 (some "hi") 5 readyWorld
      = .ok (some "a") worldNulFailure ∧
    appended nulDecodeFailEngine (worldNulFailure.trace.drop readyWorld.trace.length)
      = [String.mk ['a', NUL, 'b']] ∧
    (∃ e ∈ worldNulFailure.trace.drop readyWorld.trace.length, e.isFailedDecode = true) ∧
    (some "a" : Option String) ≠ some (String.join [String.mk ['a', NUL, 'b']]) := by
  decide

/-- Claim C3 as amended: when a call of `llama_generate_text` has appended at least one
token text and one of its decode calls reports failure, that decode is a
single-token feed-back decode and the last effect of the call, no earlier decode
failed, and the call returns a non-null result: the C text of all the token texts
appended, that is the accumulated text up to its first NUL, which is the accumulated
text itself when it has no NUL. -/
theorem text_kept_on_decode_failure (E : Engine) (w w1 : World) (h : Nat)
    (s : llama_context) (prompt : Option String) (max_tokens : Int) (ret : Option String)
    (hs : w.heap.lookup h = some s)
    (hrun : llama_generate_text E h prompt max_tokens w = .ok ret w1)
    (hk : 1 ≤ (appended E (w1.trace.drop w.trace.length)).length)
    (hfail : ∃ e ∈ w1.trace.drop w.trace.length, e.isFailedDecode = true) :
    (∃ δ t pos rc, rc ≠ 0 ∧ w1.trace = w.trace ++ δ ++ [.decode s.ctx [t] pos 0 rc] ∧
      (∀ e ∈ δ, e.isFailedDecode = false) ∧
      appended E δ = appended E (w1.trace.drop w.trace.length)) ∧
    ret = some (c_str (String.join (appended E (w1.trace.drop w.trace.length)))) ∧
    (NUL ∉ (String.join (appended E (w1.trace.drop w.trace.length))).data →
      ret = some (String.join (appended E (w1.trace.drop w.trace.length)))) := by
  obtain ⟨δ, htr, hcase⟩ := generate_text_run E w w1 h s prompt max_tokens ret hs hrun
  have hdrop : w1.trace.drop w.trace.length = δ := by
    rw [htr, List.drop_left]
  rw [hdrop] at hk hfail ⊢
  rcases hcase with ⟨-, -, happ⟩ | ⟨pre, δl, hδ, -, happ, hpre, hret, -, -, -, h5, -⟩
  · rw [happ] at hk
    simp at hk
  · have happ1 : appended E δ = appended E δl := by
      rw [hδ, appended_append, happ, List.nil_append]
    have hin : ∃ e ∈ δl, e.isFailedDecode = true := by
      obtain ⟨e, he, hf⟩ := hfail
      rw [hδ] at he
      rcases List.mem_append.mp he with he | he
      · rw [hpre e he] at hf
        cases hf
      · exact ⟨e, he, hf⟩
    obtain ⟨δ1, t, pos, rc, hrc, hδl, hall⟩ := h5 hin
    refine ⟨⟨pre ++ δ1, t, pos, rc, hrc, ?_, ?_, ?_⟩, ?_, ?_⟩
    · rw [htr, hδ, hδl]
      simp [List.append_assoc]
    · intro e he
      rcases List.mem_append.mp he with he | he
      · exact hpre e he
      · exact hall e he
    · rw [hδ, hδl, appended_append, appended_append, appended_append]
      simp [appended]
    · rw [happ1]
      exact hret
    · intro hnul
      rw [happ1] at hnul ⊢
      rw [hret, c_str_of_nul_free _ hnul]

/-- Instance of the amended C3: with `decodeFailEngine` the text `"ab"` of token `6` is appended,
the feed-back decode fails, and the call returns `"ab"`. -/
theorem text_kept_on_decode_failure_witness :
    llama_generate_text decodeFailEngine 1 (some "hi") 5 readyWorld
      = .ok (some "ab") worldAfterFailure ∧
    1 ≤ (appended decodeFailEngine
      (worldAfterFailure.trace.drop readyWorld.trace.length)).length ∧
    some "ab" = some (c_str (String.join (appended decodeFailEngine
      (worldAfterFailure.trace.drop readyWorld.trace.length)))) :=
  ⟨by decide, by decide,
    (text_kept_on_decode_failure decodeFailEngine readyWorld worldAfterFailure 1
      readySession (some "hi") 5 (some "ab") (by decide) (by decide) (by decide)
      ⟨.decode 9 [6] 2 0 1, by decide, by decide⟩).2.1⟩

/-- Claim C10, evaluated: the mock engine samples token `5`, whose piece
`"123456789"` has 9 bytes; `llama_token_to_piece` with the 8-byte buffer answers
`-9`, nothing is appended, and the call returns the empty text although the sampled
token is not the end-of-sequence token. -/
theorem long_piece_is_dropped :
    llama_generate_text mockEngine 1 (some "hi") 1 readyWorld = .ok (some "") worldAfterOne ∧
    sampled (worldAfterOne.trace.drop readyWorld.trace.length) = [5] ∧
    mockEngine.token_eos 7 = 2 ∧
    mockEngine.piece 7 5 = "123456789" ∧
    mockEngine.token_to_piece 7 5 8 = (-9, "") ∧
    fed_back (worldAfterOne.trace.drop readyWorld.trace.length) = [(5, 2, 0)] := by
  decide

/-! ## Failure of construction -/

/-- Claim C5, evaluated: when the model load fails, and when the context creation
fails, `llama_init` returns null without any `llama_backend_free`; the backend
counter is `1` after the call and was `0` before it. -/
theorem failed_init_keeps_backend :
    llama_init noModelEngine (some "m.gguf") emptyWorld = .ok 0
      { trace := [.new_session 1, .backend_init false, .load_model "m.gguf" 0,
          .delete_session 1]
        heap := [] } ∧
    counters [.new_session 1, .backend_init false, .load_model "m.gguf" 0,
      .delete_session 1] = ⟨1, 0, 0, 0⟩ ∧
    llama_init noContextEngine (some "m.gguf") emptyWorld = .ok 0
      { trace := [.new_session 1, .backend_init false, .load_model "m.gguf" 7,
          .new_context 7 2048 512 4 0, .free_model 7, .delete_session 1]
        heap := [] } ∧
    counters [.new_session 1, .backend_init false, .load_model "m.gguf" 7,
      .new_context 7 2048 512 4 0, .free_model 7, .delete_session 1] = ⟨1, 0, 0, 0⟩ ∧
    counters emptyWorld.trace = ⟨0, 0, 0, 0⟩ := by
  decide

/-! ## Use after release -/

end LlamaWrapper
